import Mathlib

/-!
Shallow embedding of `src/perf/pgbench.py` (class `Pgbench`), centred on the
log parser `extract_tps_stats` (lines 134-163), together with the parameter
validation of `setUp` (lines 119-126) and the benchmark-command selection of
`test` (lines 176-179).

Modelling conventions:
* a text file is a `List (List Char)` of its lines; a missing file (the
  `FileNotFoundError` branch) is the `none` input;
* Python floats are modelled as exact rationals; every numeric comparison a
  claim makes is on short decimal literals where the rational and the IEEE
  double agree;
* the compiled pattern `tps\s*=\s*([\d.]+)` of line 144 is modelled by
  `searchLine`, a leftmost-match scanner: at each start position the pieces
  are matched greedily, which agrees with the backtracking regex engine
  because `=` is not whitespace and digits and dots are not whitespace, so no
  shorter `\s*` or `[\d.]+` munch can ever succeed where the greedy one fails;
* `\s` and `\d` are modelled over ASCII (`re` also accepts some further
  Unicode whitespace and digits; no claim involves any of them);
* a `float()` call raising `ValueError` — which `extract_tps_stats` does not
  catch — is modelled by the `ExtractResult.valueError` outcome;
* the `print` reporting of lines 156-161 is modelled by the fields of
  `ExtractResult.stats`; the `.2f` display of a value is modelled by `rnd2`,
  the number of hundredths shown (round half to even, as `format` rounds the
  decimal expansion of the double; no value below sits at an exact tie, so
  the tie rule never matters).
-/

/-- ASCII whitespace, as matched by `\s` in the pattern of line 144. -/
def isSpace (c : Char) : Bool :=
  c == ' ' || c == '\t' || c == '\n' || c == '\r' || c == '\x0b' || c == '\x0c'

/-- A character the capture class `[\d.]` of line 144 accepts: a digit or a dot. -/
def isTokChar (c : Char) : Bool := c.isDigit || c == '.'

/-- Greedy `\s*`: drop the maximal run of whitespace. -/
def skipSpaces : List Char → List Char
  | [] => []
  | c :: cs => if isSpace c then skipSpaces cs else c :: cs

/-- Match `tps\s*=\s*([\d.]+)` anchored at the head of the list, returning the
greedily captured group, as the regex engine would at one start position. -/
def matchAt : List Char → Option (List Char)
  | 't' :: 'p' :: 's' :: rest =>
    match skipSpaces rest with
    | '=' :: rest2 =>
      let tok := (skipSpaces rest2).takeWhile isTokChar
      if tok.isEmpty then none else some tok
    | _ => none
  | _ => none

/-- Model of `tps_pattern.search(line)` (line 150): try every start position
from the left, returning the first captured group. -/
def searchLine : List Char → Option (List Char)
  | [] => none
  | c :: cs =>
    match matchAt (c :: cs) with
    | some tok => some tok
    | none => searchLine cs

/-- Value of a run of decimal digits (most significant first); empty runs give
0, matching how `float("5.")` and `float(".5")` read their missing side. -/
def digitsVal (ds : List Char) : Nat :=
  ds.foldl (fun acc c => 10 * acc + (c.toNat - 48)) 0

/-- Exact value of a captured token, integer part plus fractional part. -/
def floatVal (tok : List Char) : ℚ :=
  (digitsVal (tok.takeWhile (fun c => !(c == '.'))) : ℚ) +
    (digitsVal ((tok.dropWhile (fun c => !(c == '.'))).drop 1) : ℚ) /
      (10 : ℚ) ^ ((tok.dropWhile (fun c => !(c == '.'))).drop 1).length

/-- Model of Python `float()` (line 148) on the strings the capture group can
produce, i.e. nonempty strings of digits and dots: it succeeds exactly when
the token has at most one dot and at least one digit (`float("1.2.3")`,
`float("...")`, `float(".")` all raise `ValueError`), and returns the exact
decimal value. -/
def parseFloatTok (tok : List Char) : Option ℚ :=
  if tok ≠ [] ∧ tok.all isTokChar = true ∧ tok.count '.' ≤ 1 ∧
      tok.any Char.isDigit = true then
    some (floatVal tok)
  else none

/-- Model of the list comprehension of lines 148-150: walk the lines in order,
skip lines where the search fails, convert the captured group of each matching
line with `float`; a failing conversion raises, abandoning the whole
comprehension (`Except.error`). -/
def collectTps : List (List Char) → Except Unit (List ℚ)
  | [] => .ok []
  | l :: ls =>
    match searchLine l with
    | none => collectTps ls
    | some tok =>
      match parseFloatTok tok with
      | none => .error ()
      | some v =>
        match collectTps ls with
        | .ok vs => .ok (v :: vs)
        | .error e => .error e

/-- Python `min` over a nonempty list, head split off. -/
def pyMin (v : ℚ) (vs : List ℚ) : ℚ := vs.foldl min v

/-- Python `max` over a nonempty list, head split off. -/
def pyMax (v : ℚ) (vs : List ℚ) : ℚ := vs.foldl max v

/-- Python `sum`: a left fold of addition starting from 0. -/
def pySum (vs : List ℚ) : ℚ := vs.foldl (· + ·) 0

/-- The `sum(tps_values) / len(tps_values)` of line 161. -/
def pyAvg (vs : List ℚ) : ℚ := pySum vs / vs.length

/-- Observable outcome of one call to `extract_tps_stats`: the caught
missing-file report (line 152), an uncaught `ValueError` from `float`, the
no-data report (line 163), or the statistics report of lines 156-161 with the
captured values and the three computed figures. -/
inductive ExtractResult where
  | fileNotFound (path : List Char) : ExtractResult
  | valueError : ExtractResult
  | noData : ExtractResult
  | stats (values : List ℚ) (mn mx avg : ℚ) : ExtractResult
deriving DecidableEq

/-- Model of `extract_tps_stats(self, log_file="test.log")` (lines 134-163),
applied to the file's content (`none` when opening raises
`FileNotFoundError`). -/
def extract_tps_stats (log_file : List Char)
    (contents : Option (List (List Char))) : ExtractResult :=
  match contents with
  | none => .fileNotFound log_file
  | some lines =>
    match collectTps lines with
    | .error _ => .valueError
    | .ok [] => .noData
    | .ok (v :: vs) =>
      .stats (v :: vs) (pyMin v vs) (pyMax v vs) (pyAvg (v :: vs))

/-- Hundredths displayed by the `.2f` format of line 160: round half to even. -/
def rnd2 (q : ℚ) : ℤ :=
  if q * 100 - (⌊q * 100⌋ : ℚ) < 1 / 2 then ⌊q * 100⌋
  else if 1 / 2 < q * 100 - (⌊q * 100⌋ : ℚ) then ⌊q * 100⌋ + 1
  else if ⌊q * 100⌋ % 2 = 0 then ⌊q * 100⌋ else ⌊q * 100⌋ + 1

/-- The three summary figures of a run, when the statistics table is printed. -/
def summaryOf : ExtractResult → Option (ℚ × ℚ × ℚ)
  | .stats _ mn mx avg => some (mn, mx, avg)
  | _ => none

/-- Two consecutive runs of the extractor on the same unmodified file. -/
def runTwice (log_file : List Char) (contents : Option (List (List Char))) :
    ExtractResult × ExtractResult :=
  (extract_tps_stats log_file contents, extract_tps_stats log_file contents)

/-- Lines 119-126 of `setUp`: when both parameters are positive, keep the
specified time limit (only a warning is logged); when both are zero, default
the duration to 120 seconds; otherwise leave the duration unchanged. -/
def setupDuration (benchmark_duration transaction_count : ℤ) : ℤ :=
  if 0 < benchmark_duration ∧ 0 < transaction_count then benchmark_duration
  else if benchmark_duration = 0 ∧ transaction_count = 0 then 120
  else benchmark_duration

/-- Which pgbench invocation `test` issues (lines 176-179). -/
inductive PgbenchCmd where
  | timeLimited : PgbenchCmd
  | transactionCount : PgbenchCmd
deriving DecidableEq

/-- Lines 176-179: the `--time` command when the (post-`setUp`) duration is
positive, the `--transactions` command otherwise. -/
def chooseCmd (benchmark_duration : ℤ) : PgbenchCmd :=
  if 0 < benchmark_duration then .timeLimited else .transactionCount

/-- A line is harmless when it either has no match, or its captured token has
at most one dot and at least one digit (so that `float` cannot raise). -/
def lineGood (l : List Char) : Bool :=
  match searchLine l with
  | none => true
  | some tok => decide (tok.count '.' ≤ 1) && tok.any Char.isDigit

/-- A line on which the comprehension cannot raise: either no match, or the
captured token converts. -/
def lineOk (l : List Char) : Bool :=
  match searchLine l with
  | none => true
  | some tok => (parseFloatTok tok).isSome

/-- The value a line contributes, when it has one. -/
def lineVal (l : List Char) : Option ℚ :=
  (searchLine l).bind parseFloatTok

/-- Declarative reading of the code's pattern `tps\s*=\s*([\d.]+)`: the line
contains `tps`, optional whitespace, `=`, optional whitespace, and a nonempty
run of digits and dots. -/
def codeLineMatches (line : List Char) : Prop :=
  ∃ pre ws1 ws2 tok rest,
    line = pre ++ ['t', 'p', 's'] ++ ws1 ++ ['='] ++ ws2 ++ tok ++ rest ∧
    ws1.all isSpace = true ∧ ws2.all isSpace = true ∧
    tok ≠ [] ∧ tok.all isTokChar = true

/-- Following the spec's words: the line contains `tps`, optional whitespace,
`=`, optional whitespace, and a numeric token composed of digits and at most
one decimal point. -/
def specLineMatches (line : List Char) : Prop :=
  ∃ pre ws1 ws2 tok rest,
    line = pre ++ ['t', 'p', 's'] ++ ws1 ++ ['='] ++ ws2 ++ tok ++ rest ∧
    ws1.all isSpace = true ∧ ws2.all isSpace = true ∧
    tok ≠ [] ∧ tok.all isTokChar = true ∧
    tok.count '.' ≤ 1 ∧ tok.any Char.isDigit = true

/-- A successful conversion: when the captured token satisfies the conditions
of `float`, `parseFloatTok` returns its decimal value. -/
theorem parseFloatTok_eq_some (tok : List Char)
    (h : tok ≠ [] ∧ tok.all isTokChar = true ∧ tok.count '.' ≤ 1 ∧
      tok.any Char.isDigit = true) :
    parseFloatTok tok = some (floatVal tok) := by
  unfold parseFloatTok
  rw [if_pos h]

/-- Evaluation helper: a token splits as integer part `ip` and fractional part
`fp`, and its value is `a + b / 10 ^ n`. -/
theorem parseFloatTok_eval (tok ip fp : List Char) (a b n : ℕ) (q : ℚ)
    (h : tok ≠ [] ∧ tok.all isTokChar = true ∧ tok.count '.' ≤ 1 ∧
      tok.any Char.isDigit = true)
    (hip : tok.takeWhile (fun c => !(c == '.')) = ip)
    (hfp : (tok.dropWhile (fun c => !(c == '.'))).drop 1 = fp)
    (ha : digitsVal ip = a) (hb : digitsVal fp = b) (hn : fp.length = n)
    (hq : (a : ℚ) + (b : ℚ) / (10 : ℚ) ^ n = q) :
    parseFloatTok tok = some q := by
  rw [parseFloatTok_eq_some tok h, floatVal, hip, hfp, ha, hb, hn, hq]

/-- A line the search skips contributes nothing. -/
theorem collectTps_cons_none (l : List Char) (ls : List (List Char))
    (h : searchLine l = none) : collectTps (l :: ls) = collectTps ls := by
  simp only [collectTps, h]

/-- A line whose captured token converts contributes its value in order. -/
theorem collectTps_cons_ok (l : List Char) (ls : List (List Char))
    (tok : List Char) (v : ℚ) (vs : List ℚ)
    (h1 : searchLine l = some tok) (h2 : parseFloatTok tok = some v)
    (h3 : collectTps ls = .ok vs) :
    collectTps (l :: ls) = .ok (v :: vs) := by
  simp only [collectTps, h1, h2, h3]

/-- A line whose captured token fails to convert raises at once. -/
theorem collectTps_cons_err (l : List Char) (ls : List (List Char))
    (tok : List Char) (h1 : searchLine l = some tok)
    (h2 : parseFloatTok tok = none) : collectTps (l :: ls) = .error () := by
  simp only [collectTps, h1, h2]

/-- When the collected values are nonempty, the extractor reports the
statistics of lines 156-161. -/
theorem extract_some_stats (p : List Char) (lines : List (List Char))
    (v : ℚ) (vs : List ℚ) (h : collectTps lines = .ok (v :: vs)) :
    extract_tps_stats p (some lines) =
      .stats (v :: vs) (pyMin v vs) (pyMax v vs) (pyAvg (v :: vs)) := by
  simp only [extract_tps_stats, h]

/-- When the comprehension raises, the exception escapes the extractor. -/
theorem extract_some_err (p : List Char) (lines : List (List Char))
    (h : collectTps lines = .error ()) :
    extract_tps_stats p (some lines) = .valueError := by
  simp only [extract_tps_stats, h]

/-- When no values are collected, the extractor reports no data (line 163). -/
theorem extract_some_nil (p : List Char) (lines : List (List Char))
    (h : collectTps lines = .ok []) :
    extract_tps_stats p (some lines) = .noData := by
  simp only [extract_tps_stats, h]

/-- Every character kept by `takeWhile` satisfies the predicate. -/
theorem takeWhile_all_self (p : Char → Bool) (l : List Char) :
    (l.takeWhile p).all p = true := by
  rw [List.all_eq_true]
  intro x hx
  exact List.mem_takeWhile_imp hx

/-- A captured group is a nonempty run of digits and dots. -/
theorem matchAt_sound (cs tok : List Char) (h : matchAt cs = some tok) :
    tok ≠ [] ∧ tok.all isTokChar = true := by
  unfold matchAt at h
  split at h
  · split at h
    · dsimp only at h
      split at h
      · exact absurd h (by simp)
      · rename_i rest2 hsk hne
        obtain rfl : (skipSpaces rest2).takeWhile isTokChar = tok :=
          Option.some.inj h
        refine ⟨fun hnil => hne ?_, takeWhile_all_self _ _⟩
        rw [hnil]
        rfl
    · exact absurd h (by simp)
  · exact absurd h (by simp)

/-- The token `searchLine` captures is a nonempty run of digits and dots. -/
theorem searchLine_sound (l tok : List Char) (h : searchLine l = some tok) :
    tok ≠ [] ∧ tok.all isTokChar = true := by
  induction l with
  | nil => simp [searchLine] at h
  | cons c cs ih =>
    rw [searchLine] at h
    cases hm : matchAt (c :: cs) with
    | some tok2 =>
      rw [hm] at h
      obtain rfl : tok2 = tok := Option.some.inj h
      exact matchAt_sound _ _ hm
    | none =>
      rw [hm] at h
      exact ih h

/-- On a file whose every line is harmless, the comprehension completes. -/
theorem collectTps_ok_of_good (lines : List (List Char))
    (h : lines.all lineGood = true) : ∃ vs, collectTps lines = .ok vs := by
  induction lines with
  | nil => exact ⟨[], rfl⟩
  | cons l ls ih =>
    rw [List.all_cons] at h
    obtain ⟨h1, h2⟩ := Bool.and_eq_true_iff.mp h
    obtain ⟨vs, hvs⟩ := ih h2
    cases hs : searchLine l with
    | none => exact ⟨vs, by rw [collectTps_cons_none _ _ hs, hvs]⟩
    | some tok =>
      have hsound := searchLine_sound _ _ hs
      unfold lineGood at h1
      rw [hs] at h1
      obtain ⟨hcnt, hdig⟩ := Bool.and_eq_true_iff.mp h1
      have hp : parseFloatTok tok = some (floatVal tok) :=
        parseFloatTok_eq_some tok
          ⟨hsound.1, hsound.2, of_decide_eq_true hcnt, hdig⟩
      exact ⟨floatVal tok :: vs, collectTps_cons_ok _ _ _ _ _ hs hp hvs⟩

/-- Unfolding `pyMin` one step. -/
theorem pyMin_eq_min_cons (v w : ℚ) (ws : List ℚ) :
    pyMin v (w :: ws) = pyMin (min v w) ws := rfl

/-- Unfolding `pyMax` one step. -/
theorem pyMax_eq_max_cons (v w : ℚ) (ws : List ℚ) :
    pyMax v (w :: ws) = pyMax (max v w) ws := rfl

/-- The reported minimum bounds every collected value from below. -/
theorem pyMin_le (v : ℚ) (vs : List ℚ) : ∀ x ∈ v :: vs, pyMin v vs ≤ x := by
  induction vs generalizing v with
  | nil =>
    intro x hx
    rw [List.mem_singleton] at hx
    subst hx
    exact le_refl _
  | cons w ws ih =>
    intro x hx
    rw [pyMin_eq_min_cons]
    rcases List.mem_cons.mp hx with rfl | hx2
    · exact le_trans (ih (min x w) _ (List.mem_cons_self _ _)) (min_le_left _ _)
    · rcases List.mem_cons.mp hx2 with rfl | hx3
      · exact le_trans (ih (min v x) _ (List.mem_cons_self _ _))
          (min_le_right _ _)
      · exact ih (min v w) x (List.mem_cons_of_mem _ hx3)

/-- The reported maximum bounds every collected value from above. -/
theorem le_pyMax (v : ℚ) (vs : List ℚ) : ∀ x ∈ v :: vs, x ≤ pyMax v vs := by
  induction vs generalizing v with
  | nil =>
    intro x hx
    rw [List.mem_singleton] at hx
    subst hx
    exact le_refl _
  | cons w ws ih =>
    intro x hx
    rw [pyMax_eq_max_cons]
    rcases List.mem_cons.mp hx with rfl | hx2
    · exact le_trans (le_max_left _ _) (ih (max x w) _ (List.mem_cons_self _ _))
    · rcases List.mem_cons.mp hx2 with rfl | hx3
      · exact le_trans (le_max_right _ _)
          (ih (max v x) _ (List.mem_cons_self _ _))
      · exact ih (max v w) x (List.mem_cons_of_mem _ hx3)

/-- The reported minimum is one of the collected values. -/
theorem pyMin_mem (v : ℚ) (vs : List ℚ) : pyMin v vs ∈ v :: vs := by
  induction vs generalizing v with
  | nil => simp [pyMin]
  | cons w ws ih =>
    rw [pyMin_eq_min_cons]
    rcases List.mem_cons.mp (ih (min v w)) with h | h
    · rcases min_cases v w with ⟨h2, _⟩ | ⟨h2, _⟩ <;> rw [h, h2]
      · exact List.mem_cons_self _ _
      · exact List.mem_cons_of_mem _ (List.mem_cons_self _ _)
    · exact List.mem_cons_of_mem _ (List.mem_cons_of_mem _ h)

/-- The reported maximum is one of the collected values. -/
theorem pyMax_mem (v : ℚ) (vs : List ℚ) : pyMax v vs ∈ v :: vs := by
  induction vs generalizing v with
  | nil => simp [pyMax]
  | cons w ws ih =>
    rw [pyMax_eq_max_cons]
    rcases List.mem_cons.mp (ih (max v w)) with h | h
    · rcases max_cases v w with ⟨h2, _⟩ | ⟨h2, _⟩ <;> rw [h, h2]
      · exact List.mem_cons_self _ _
      · exact List.mem_cons_of_mem _ (List.mem_cons_self _ _)
    · exact List.mem_cons_of_mem _ (List.mem_cons_of_mem _ h)

/-- A left fold of addition is the starting value plus the sum. -/
theorem foldl_add_eq (a : ℚ) (vs : List ℚ) :
    vs.foldl (· + ·) a = a + vs.sum := by
  induction vs generalizing a with
  | nil => simp
  | cons w ws ih => simp [ih, add_assoc]

/-- Python `sum` agrees with `List.sum`. -/
theorem pySum_eq_sum (vs : List ℚ) : pySum vs = vs.sum := by
  rw [pySum, foldl_add_eq, zero_add]

/-- The reported average lies between the reported minimum and maximum. -/
theorem pyAvg_bounds (v : ℚ) (vs : List ℚ) :
    pyMin v vs ≤ pyAvg (v :: vs) ∧ pyAvg (v :: vs) ≤ pyMax v vs := by
  have hn : (0 : ℚ) < ((v :: vs).length : ℚ) := by
    simp only [List.length_cons]
    positivity
  constructor
  · rw [pyAvg, pySum_eq_sum, le_div_iff₀ hn]
    have := List.card_nsmul_le_sum (v :: vs) (pyMin v vs) (pyMin_le v vs)
    rw [nsmul_eq_mul] at this
    linarith
  · rw [pyAvg, pySum_eq_sum, div_le_iff₀ hn]
    have := List.sum_le_card_nsmul (v :: vs) (pyMax v vs) (le_pyMax v vs)
    rw [nsmul_eq_mul] at this
    linarith

/-- Inversion: a statistics report comes from a nonempty collection, and its
three figures are exactly the Python reductions over that collection. -/
theorem extract_stats_inv (p : List Char) (lines : List (List Char))
    (vals : List ℚ) (mn mx avg : ℚ)
    (h : extract_tps_stats p (some lines) = .stats vals mn mx avg) :
    ∃ v vs, vals = v :: vs ∧ mn = pyMin v vs ∧ mx = pyMax v vs ∧
      avg = pyAvg (v :: vs) ∧ collectTps lines = .ok (v :: vs) := by
  cases hcl : collectTps lines with
  | error e =>
    cases e
    rw [extract_some_err p lines hcl] at h
    exact absurd h (by simp)
  | ok vs0 =>
    cases vs0 with
    | nil =>
      rw [extract_some_nil p lines hcl] at h
      exact absurd h (by simp)
    | cons v vs =>
      rw [extract_some_stats p lines v vs hcl] at h
      injection h with h1 h2 h3 h4
      exact ⟨v, vs, h1.symm, h2.symm, h3.symm, h4.symm, rfl⟩

/-- A file of lines with no match collects nothing. -/
theorem collectTps_all_none (lines : List (List Char))
    (h : ∀ l ∈ lines, searchLine l = none) : collectTps lines = .ok [] := by
  induction lines with
  | nil => rfl
  | cons l ls ih =>
    rw [collectTps_cons_none _ _ (h l (List.mem_cons_self _ _))]
    exact ih fun x hx => h x (List.mem_cons_of_mem _ hx)

/-- The comprehension succeeds exactly on files whose lines are all harmless,
and then collects the per-line values in file order. -/
theorem collectTps_char (lines : List (List Char)) :
    collectTps lines =
      if lines.all lineOk = true then .ok (lines.filterMap lineVal)
      else .error () := by
  induction lines with
  | nil => rfl
  | cons l ls ih =>
    cases hs : searchLine l with
    | none =>
      have hok : lineOk l = true := by simp [lineOk, hs]
      have hval : lineVal l = none := by simp [lineVal, hs]
      rw [collectTps_cons_none _ _ hs, ih]
      simp [List.all_cons, hok, List.filterMap_cons, hval]
    | some tok =>
      cases hp : parseFloatTok tok with
      | none =>
        have hok : lineOk l = false := by simp [lineOk, hs, hp]
        rw [collectTps_cons_err _ _ _ hs hp]
        simp [List.all_cons, hok]
      | some v =>
        have hok : lineOk l = true := by simp [lineOk, hs, hp]
        have hval : lineVal l = some v := by simp [lineVal, hs, hp]
        by_cases hall : ls.all lineOk = true
        · rw [collectTps_cons_ok _ _ _ _ _ hs hp
            (by rw [ih, if_pos hall])]
          simp [List.all_cons, hok, hall, List.filterMap_cons, hval]
        · have herr : collectTps ls = .error () := by
            rw [ih, if_neg hall]
          have hstep : collectTps (l :: ls) = .error () := by
            simp only [collectTps, hs, hp, herr]
          rw [hstep]
          simp [List.all_cons, hall]

/-- A conjunction of per-line tests is invariant under permutation. -/
theorem perm_all (p : List Char → Bool) {l1 l2 : List (List Char)}
    (h : l1.Perm l2) : l1.all p = l2.all p := by
  induction h with
  | nil => rfl
  | cons x h ih => simp [List.all_cons, ih]
  | swap x y l =>
    simp only [List.all_cons, ← Bool.and_assoc, Bool.and_comm (p y) (p x)]
  | trans h1 h2 ih1 ih2 => exact ih1.trans ih2

/-- The reported minimum is invariant under permutation of the values. -/
theorem pyMin_perm (v w : ℚ) (vs ws : List ℚ)
    (h : (v :: vs).Perm (w :: ws)) : pyMin v vs = pyMin w ws :=
  le_antisymm
    (pyMin_le v vs _ (h.mem_iff.mpr (pyMin_mem w ws)))
    (pyMin_le w ws _ (h.mem_iff.mp (pyMin_mem v vs)))

/-- The reported maximum is invariant under permutation of the values. -/
theorem pyMax_perm (v w : ℚ) (vs ws : List ℚ)
    (h : (v :: vs).Perm (w :: ws)) : pyMax v vs = pyMax w ws :=
  le_antisymm
    (le_pyMax w ws _ (h.mem_iff.mp (pyMax_mem v vs)))
    (le_pyMax v vs _ (h.mem_iff.mpr (pyMax_mem w ws)))

/-- The reported average is invariant under permutation of the values. -/
theorem pyAvg_perm (vs ws : List ℚ) (h : vs.Perm ws) :
    pyAvg vs = pyAvg ws := by
  rw [pyAvg, pyAvg, pySum_eq_sum, pySum_eq_sum, h.sum_eq, h.length_eq]

/-- Whitespace characters are not capture-class characters. -/
theorem space_not_tokChar (c : Char) (h : isSpace c = true) :
    isTokChar c = false := by
  simp only [isSpace, Bool.or_eq_true, beq_iff_eq] at h
  rcases h with ((((h | h) | h) | h) | h) | h <;> subst h <;> decide

/-- Capture-class characters are not whitespace. -/
theorem isTokChar_not_space (c : Char) (h : isTokChar c = true) :
    isSpace c = false := by
  cases hs : isSpace c
  · rfl
  · rw [space_not_tokChar c hs] at h
    exact absurd h (by simp)

/-- What `skipSpaces` removes is a run of whitespace. -/
theorem skipSpaces_decomp (xs ys : List Char) (h : skipSpaces xs = ys) :
    ∃ ws, xs = ws ++ ys ∧ ws.all isSpace = true := by
  induction xs generalizing ys with
  | nil =>
    exact ⟨[], by rw [← h]; rfl, rfl⟩
  | cons c cs ih =>
    rw [skipSpaces] at h
    by_cases hc : isSpace c = true
    · rw [if_pos hc] at h
      obtain ⟨ws, h1, h2⟩ := ih ys h
      exact ⟨c :: ws, by rw [List.cons_append, ← h1],
        by simp [List.all_cons, hc, h2]⟩
    · rw [if_neg hc] at h
      exact ⟨[], by rw [← h]; rfl, rfl⟩

/-- `skipSpaces` passes over a run of whitespace. -/
theorem skipSpaces_append_spaces (ws l : List Char)
    (h : ws.all isSpace = true) : skipSpaces (ws ++ l) = skipSpaces l := by
  induction ws with
  | nil => rfl
  | cons c cs ih =>
    rw [List.all_cons, Bool.and_eq_true_iff] at h
    rw [List.cons_append, skipSpaces, if_pos h.1]
    exact ih h.2

/-- `skipSpaces` stops at a non-whitespace character. -/
theorem skipSpaces_cons_of_not_space (c : Char) (l : List Char)
    (h : isSpace c = false) : skipSpaces (c :: l) = c :: l := by
  simp [skipSpaces, h]

/-- A successful anchored match decomposes the text in the declarative shape
of the pattern. -/
theorem matchAt_decomp (cs tok : List Char) (h : matchAt cs = some tok) :
    ∃ ws1 ws2 rest,
      cs = ['t', 'p', 's'] ++ ws1 ++ ['='] ++ ws2 ++ tok ++ rest ∧
      ws1.all isSpace = true ∧ ws2.all isSpace = true := by
  unfold matchAt at h
  split at h
  · rename_i rest0
    split at h
    · rename_i rest2 hsk
      dsimp only at h
      split at h
      · exact absurd h (by simp)
      · rename_i hne
        obtain rfl : (skipSpaces rest2).takeWhile isTokChar = tok :=
          Option.some.inj h
        obtain ⟨ws1, hws1, hall1⟩ := skipSpaces_decomp rest0 _ hsk
        obtain ⟨ws2, hws2, hall2⟩ := skipSpaces_decomp rest2 _ rfl
        refine ⟨ws1, ws2, (skipSpaces rest2).dropWhile isTokChar,
          ?_, hall1, hall2⟩
        subst hws1
        have hsplit :
            (skipSpaces rest2).takeWhile isTokChar ++
              (skipSpaces rest2).dropWhile isTokChar = skipSpaces rest2 :=
          List.takeWhile_append_dropWhile isTokChar (skipSpaces rest2)
        simp only [List.cons_append, List.nil_append, List.append_assoc,
          hsplit]
        rw [← hws2]
    · exact absurd h (by simp)
  · exact absurd h (by simp)

/-- A text in the declarative shape of the pattern matches at its head. -/
theorem matchAt_isSome_head (ws1 ws2 tok rest : List Char)
    (hw1 : ws1.all isSpace = true) (hw2 : ws2.all isSpace = true)
    (ht : tok ≠ []) (htok : tok.all isTokChar = true) :
    (matchAt ('t' :: 'p' :: 's' ::
      (ws1 ++ '=' :: (ws2 ++ (tok ++ rest))))).isSome = true := by
  obtain ⟨t0, tok', rfl⟩ := List.exists_cons_of_ne_nil ht
  rw [List.all_cons, Bool.and_eq_true_iff] at htok
  have h1 : skipSpaces (ws1 ++ '=' :: (ws2 ++ (t0 :: tok' ++ rest))) =
      '=' :: (ws2 ++ (t0 :: tok' ++ rest)) := by
    rw [skipSpaces_append_spaces _ _ hw1]
    exact skipSpaces_cons_of_not_space _ _ (by decide)
  have h2 : skipSpaces (ws2 ++ (t0 :: tok' ++ rest)) =
      t0 :: (tok' ++ rest) := by
    rw [skipSpaces_append_spaces _ _ hw2, List.cons_append]
    exact skipSpaces_cons_of_not_space _ _ (isTokChar_not_space t0 htok.1)
  rw [matchAt, h1]
  show (if ((skipSpaces (ws2 ++ (t0 :: tok' ++ rest))).takeWhile
      isTokChar).isEmpty = true then (none : Option (List Char))
    else some ((skipSpaces (ws2 ++ (t0 :: tok' ++ rest))).takeWhile
      isTokChar)).isSome = true
  rw [h2, List.takeWhile_cons_of_pos htok.1]
  simp

/-- Prefixing a character preserves the existence of a match. -/
theorem searchLine_cons_isSome (c : Char) (l : List Char)
    (h : (searchLine l).isSome = true) :
    (searchLine (c :: l)).isSome = true := by
  rw [searchLine]
  cases hm : matchAt (c :: l) with
  | some tok => simp
  | none => simpa using h

/-- Prefixing any text preserves the existence of a match. -/
theorem searchLine_append_isSome (pre l : List Char)
    (h : (searchLine l).isSome = true) :
    (searchLine (pre ++ l)).isSome = true := by
  induction pre with
  | nil => simpa using h
  | cons c cs ih => exact searchLine_cons_isSome c _ ih

/-- A match at the head yields a match of the whole line. -/
theorem searchLine_isSome_of_matchAt_head (l : List Char)
    (h : (matchAt l).isSome = true) : (searchLine l).isSome = true := by
  cases l with
  | nil => simp [matchAt] at h
  | cons c cs =>
    rw [searchLine]
    cases hm : matchAt (c :: cs) with
    | some tok => simp
    | none => rw [hm] at h; simp at h

/-- The search succeeds exactly on lines of the declarative shape of the
code's pattern. -/
theorem searchLine_isSome_iff (line : List Char) :
    (searchLine line).isSome = true ↔ codeLineMatches line := by
  constructor
  · intro h
    obtain ⟨tok, htok⟩ := Option.isSome_iff_exists.mp h
    clear h
    induction line generalizing tok with
    | nil => simp [searchLine] at htok
    | cons c cs ih =>
      rw [searchLine] at htok
      cases hm : matchAt (c :: cs) with
      | some tok2 =>
        obtain ⟨ws1, ws2, rest, heq, hw1, hw2⟩ := matchAt_decomp _ _ hm
        obtain ⟨hne, hall⟩ := matchAt_sound _ _ hm
        exact ⟨[], ws1, ws2, tok2, rest, by simpa using heq, hw1, hw2,
          hne, hall⟩
      | none =>
        rw [hm] at htok
        obtain ⟨pre, ws1, ws2, tok0, rest, heq, hw1, hw2, hne, hall⟩ :=
          ih tok htok
        exact ⟨c :: pre, ws1, ws2, tok0, rest, by simp [heq], hw1, hw2,
          hne, hall⟩
  · rintro ⟨pre, ws1, ws2, tok, rest, heq, hw1, hw2, hne, hall⟩
    subst heq
    simp only [List.append_assoc, List.cons_append, List.nil_append]
    apply searchLine_append_isSome
    exact searchLine_isSome_of_matchAt_head _
      (matchAt_isSome_head ws1 ws2 tok rest hw1 hw2 hne hall)

/-- On captured groups, conversion succeeds exactly for tokens with at most
one dot and at least one digit. -/
theorem parseFloatTok_isSome_iff (tok : List Char) (h1 : tok ≠ [])
    (h2 : tok.all isTokChar = true) :
    (parseFloatTok tok).isSome = true ↔
      (tok.count '.' ≤ 1 ∧ tok.any Char.isDigit = true) := by
  by_cases hc : tok.count '.' ≤ 1 ∧ tok.any Char.isDigit = true
  · rw [parseFloatTok, if_pos ⟨h1, h2, hc.1, hc.2⟩]
    simp [hc]
  · rw [parseFloatTok, if_neg (by tauto)]
    simpa using hc

/-- Full evaluation of the spec's worked example log. -/
theorem extract_example_log :
    extract_tps_stats ("test.log".toList)
        (some ["tps = 120.50 (including connections establishing)".toList,
          "tps = 135.0".toList, "random text".toList, "tps=99.999".toList]) =
      .stats [241 / 2, 135, 99999 / 1000]
        (99999 / 1000) 135 (355499 / 3000) := by
  have s1 : searchLine
      ("tps = 120.50 (including connections establishing)".toList) =
      some ("120.50".toList) := by decide
  have s2 : searchLine ("tps = 135.0".toList) = some ("135.0".toList) := by
    decide
  have s3 : searchLine ("random text".toList) = none := by decide
  have s4 : searchLine ("tps=99.999".toList) = some ("99.999".toList) := by
    decide
  have p1 : parseFloatTok ("120.50".toList) = some (241 / 2) :=
    parseFloatTok_eval _ ("120".toList) ("50".toList) 120 50 2 _ (by decide)
      (by decide) (by decide) (by decide) (by decide) (by decide) (by norm_num)
  have p2 : parseFloatTok ("135.0".toList) = some 135 :=
    parseFloatTok_eval _ ("135".toList) ("0".toList) 135 0 1 _ (by decide)
      (by decide) (by decide) (by decide) (by decide) (by decide) (by norm_num)
  have p4 : parseFloatTok ("99.999".toList) = some (99999 / 1000) :=
    parseFloatTok_eval _ ("99".toList) ("999".toList) 99 999 3 _ (by decide)
      (by decide) (by decide) (by decide) (by decide) (by decide) (by norm_num)
  have c4 : collectTps ["tps=99.999".toList] = .ok [99999 / 1000] :=
    collectTps_cons_ok _ _ _ _ _ s4 p4 rfl
  have c3 : collectTps ["random text".toList, "tps=99.999".toList] =
      .ok [99999 / 1000] := by
    rw [collectTps_cons_none _ _ s3, c4]
  have c2 := collectTps_cons_ok _ _ _ _ _ s2 p2 c3
  have c1 := collectTps_cons_ok _ _ _ _ _ s1 p1 c2
  rw [extract_some_stats _ _ _ _ c1]
  norm_num [pyMin, pyMax, pyAvg, pySum, min_def, max_def]

/-- Full evaluation of a one-line log holding the value 5.5. -/
theorem extract_single_55 :
    extract_tps_stats ("test.log".toList) (some ["tps = 5.5".toList]) =
      .stats [11 / 2] (11 / 2) (11 / 2) (11 / 2) := by
  have s1 : searchLine ("tps = 5.5".toList) = some ("5.5".toList) := by decide
  have p1 : parseFloatTok ("5.5".toList) = some (11 / 2) :=
    parseFloatTok_eval _ ['5'] ['5'] 5 5 1 _ (by decide) (by decide)
      (by decide) (by decide) (by decide) (by decide) (by norm_num)
  have c1 : collectTps ["tps = 5.5".toList] = .ok [11 / 2] :=
    collectTps_cons_ok _ _ _ _ _ s1 p1 rfl
  rw [extract_some_stats _ _ _ _ c1]
  norm_num [pyMin, pyMax, pyAvg, pySum]

/-- C1, counterexample: the file content consisting of the single line
`tps = ...` makes the pattern capture the token `...`, whose conversion by
`float` raises a `ValueError` that escapes `extract_tps_stats` — refuting the
claim that no exception escapes for any text file content. -/
theorem extract_valueError_on_dots :
    extract_tps_stats ("test.log".toList) (some ["tps = ...".toList]) =
      .valueError := by
  have hs : searchLine ("tps = ...".toList) = some ("...".toList) := by decide
  have hp : parseFloatTok ("...".toList) = none := by decide
  exact extract_some_err _ _ (collectTps_cons_err _ _ _ hs hp)

/-- C1, amended: on a file whose every captured token has at most one dot and
at least one digit, no conversion error occurs, so only the missing-file and
empty-sample-set conditions remain. -/
theorem extract_no_valueError_of_wellformed_tokens (p : List Char)
    (lines : List (List Char)) (h : lines.all lineGood = true) :
    extract_tps_stats p (some lines) ≠ .valueError := by
  obtain ⟨vs, hvs⟩ := collectTps_ok_of_good lines h
  cases vs with
  | nil =>
    rw [extract_some_nil p lines hvs]
    simp
  | cons v vs =>
    rw [extract_some_stats p lines v vs hvs]
    simp

/-- C1, witness: a concrete two-line file with well-formed tokens on which the
amended theorem applies. -/
theorem extract_no_valueError_of_wellformed_tokens_witness :
    (["tps = 5.5".toList, "junk".toList].all lineGood = true) ∧
    extract_tps_stats ("test.log".toList)
      (some ["tps = 5.5".toList, "junk".toList]) ≠ .valueError :=
  ⟨by decide, extract_no_valueError_of_wellformed_tokens _ _ (by decide)⟩

/-- C2: the search succeeds exactly on lines containing `tps`, optional
whitespace, `=`, optional whitespace, and a nonempty run of digits and dots;
lines without a match are skipped without error; and the first captured
token's value is included exactly when it has at most one decimal point and
at least one digit. -/
theorem searchLine_match_characterization (line : List Char) :
    ((searchLine line).isSome = true ↔ codeLineMatches line) ∧
    (∀ ls, searchLine line = none → collectTps (line :: ls) = collectTps ls) ∧
    (∀ tok, searchLine line = some tok →
      ((parseFloatTok tok).isSome = true ↔
        (tok.count '.' ≤ 1 ∧ tok.any Char.isDigit = true))) :=
  ⟨searchLine_isSome_iff line,
    fun _ h => collectTps_cons_none _ _ h,
    fun tok h => parseFloatTok_isSome_iff tok (searchLine_sound _ _ h).1
      (searchLine_sound _ _ h).2⟩

/-- C2, counterexample: the line `tps = 1.2.3` contains the pattern of the
claim — `tps`, whitespace, `=`, whitespace, and the numeric token `1.2` with
one decimal point — yet it contributes no Throughput Sample: the code captures
the greedy token `1.2.3` and raises a `ValueError` instead. -/
theorem spec_match_raises_not_contributes :
    specLineMatches ("tps = 1.2.3".toList) ∧
    extract_tps_stats ("test.log".toList)
      (some ["tps = 1.2.3".toList]) = .valueError := by
  constructor
  · exact ⟨[], [' '], [' '], ['1', '.', '2'], ['.', '3'], by decide, by decide,
      by decide, by decide, by decide, by decide, by decide⟩
  · have hs : searchLine ("tps = 1.2.3".toList) = some ("1.2.3".toList) := by
      decide
    have hp : parseFloatTok ("1.2.3".toList) = none := by decide
    exact extract_some_err _ _ (collectTps_cons_err _ _ _ hs hp)

/-- C3: whenever the extractor reports statistics, the reported minimum and
maximum belong to the captured values and bound each of them, the average is
the sum of the values divided by their count, and the average lies within
the closed interval from the minimum to the maximum. -/
theorem extract_stats_correct (p : List Char) (lines : List (List Char))
    (vals : List ℚ) (mn mx avg : ℚ)
    (h : extract_tps_stats p (some lines) = .stats vals mn mx avg) :
    vals ≠ [] ∧ mn ∈ vals ∧ mx ∈ vals ∧ (∀ x ∈ vals, mn ≤ x ∧ x ≤ mx) ∧
      avg = vals.sum / (vals.length : ℚ) ∧ mn ≤ avg ∧ avg ≤ mx := by
  obtain ⟨v, vs, rfl, rfl, rfl, rfl, -⟩ :=
    extract_stats_inv p lines vals mn mx avg h
  refine ⟨by simp, pyMin_mem v vs, pyMax_mem v vs,
    fun x hx => ⟨pyMin_le v vs x hx, le_pyMax v vs x hx⟩, ?_,
    (pyAvg_bounds v vs).1, (pyAvg_bounds v vs).2⟩
  rw [pyAvg, pySum_eq_sum]

/-- C3, witness: the statistics correctness theorem applied to the concrete
one-line log holding the value 5.5. -/
theorem extract_stats_correct_witness :
    ([(11 / 2 : ℚ)] ≠ []) ∧ (11 / 2 : ℚ) ∈ [(11 / 2 : ℚ)] ∧
    (11 / 2 : ℚ) ∈ [(11 / 2 : ℚ)] ∧
    (∀ x ∈ [(11 / 2 : ℚ)], 11 / 2 ≤ x ∧ x ≤ 11 / 2) ∧
    (11 / 2 : ℚ) = List.sum [(11 / 2 : ℚ)] / (List.length [(11 / 2 : ℚ)] : ℚ) ∧
    (11 / 2 : ℚ) ≤ 11 / 2 ∧ (11 / 2 : ℚ) ≤ 11 / 2 :=
  extract_stats_correct _ _ _ _ _ _ extract_single_55

/-- C4: on an existing file none of whose lines matches the pattern, the
extractor reports the no-data outcome — no statistics and no exception. -/
theorem extract_noData_of_no_match (p : List Char)
    (lines : List (List Char)) (h : ∀ l ∈ lines, searchLine l = none) :
    extract_tps_stats p (some lines) = .noData :=
  extract_some_nil p lines (collectTps_all_none lines h)

/-- C4, witness: a concrete two-line file without any match. -/
theorem extract_noData_of_no_match_witness :
    (∀ l ∈ ["random text".toList, "no throughput here".toList],
      searchLine l = none) ∧
    extract_tps_stats ("test.log".toList)
      (some ["random text".toList, "no throughput here".toList]) = .noData :=
  ⟨by decide, extract_noData_of_no_match _ _ (by decide)⟩

/-- C5: on a missing file, the extractor reports the file-not-found outcome
naming the missing path, and produces no statistics — the condition is a
reported result, not an uncaught exception. -/
theorem extract_fileNotFound_report (p : List Char) :
    extract_tps_stats p none = .fileNotFound p := rfl

/-- C6, counterexample: on the spec's worked example log the captured values
are 120.5, 135.0 and 99.999 in file order, but the displayed minimum is
`100.00` (10000 hundredths, as `.2f` rounds 99.999 up), not the `99.99`
the claim states. -/
theorem example_log_displayed_min_cex :
    extract_tps_stats ("test.log".toList)
        (some ["tps = 120.50 (including connections establishing)".toList,
          "tps = 135.0".toList, "random text".toList, "tps=99.999".toList]) =
      .stats [241 / 2, 135, 99999 / 1000]
        (99999 / 1000) 135 (355499 / 3000) ∧
    rnd2 (99999 / 1000) = 10000 ∧ (10000 : ℤ) ≠ 9999 :=
  ⟨extract_example_log, by norm_num [rnd2], by decide⟩

/-- C6, amended: on the worked example log the captured values are
120.5, 135.0, 99.999 in file order and the displayed figures are
minimum 100.00, maximum 135.00 and average 118.50. -/
theorem example_log_eval :
    extract_tps_stats ("test.log".toList)
        (some ["tps = 120.50 (including connections establishing)".toList,
          "tps = 135.0".toList, "random text".toList, "tps=99.999".toList]) =
      .stats [241 / 2, 135, 99999 / 1000]
        (99999 / 1000) 135 (355499 / 3000) ∧
    rnd2 (99999 / 1000) = 10000 ∧ rnd2 135 = 13500 ∧
    rnd2 (355499 / 3000) = 11850 :=
  ⟨extract_example_log, by norm_num [rnd2], by norm_num [rnd2],
    by norm_num [rnd2]⟩

/-- C7: permuting the lines of a file leaves the reported summary statistics
(minimum, maximum, average) unchanged. -/
theorem extract_summary_perm_invariant (p : List Char)
    (l1 l2 : List (List Char)) (h : l1.Perm l2) :
    summaryOf (extract_tps_stats p (some l1)) =
      summaryOf (extract_tps_stats p (some l2)) := by
  by_cases hall : l1.all lineOk = true
  · have hall2 : l2.all lineOk = true := (perm_all lineOk h) ▸ hall
    have hc1 : collectTps l1 = .ok (l1.filterMap lineVal) := by
      rw [collectTps_char, if_pos hall]
    have hc2 : collectTps l2 = .ok (l2.filterMap lineVal) := by
      rw [collectTps_char, if_pos hall2]
    have hperm : (l1.filterMap lineVal).Perm (l2.filterMap lineVal) :=
      h.filterMap _
    cases hv1 : l1.filterMap lineVal with
    | nil =>
      have hv2 : l2.filterMap lineVal = [] := ((hv1 ▸ hperm).symm).eq_nil
      rw [extract_some_nil p l1 (hv1 ▸ hc1), extract_some_nil p l2 (hv2 ▸ hc2)]
    | cons v vs =>
      cases hv2 : l2.filterMap lineVal with
      | nil => exact absurd (hv2 ▸ hv1 ▸ hperm).eq_nil (by simp)
      | cons w ws =>
        have hperm2 : (v :: vs).Perm (w :: ws) := hv2 ▸ hv1 ▸ hperm
        rw [extract_some_stats p l1 v vs (hv1 ▸ hc1),
          extract_some_stats p l2 w ws (hv2 ▸ hc2)]
        simp only [summaryOf]
        rw [pyMin_perm v w vs ws hperm2, pyMax_perm v w vs ws hperm2,
          pyAvg_perm (v :: vs) (w :: ws) hperm2]
  · have hall2 : ¬ l2.all lineOk = true := (perm_all lineOk h) ▸ hall
    have hc1 : collectTps l1 = .error () := by
      rw [collectTps_char, if_neg hall]
    have hc2 : collectTps l2 = .error () := by
      rw [collectTps_char, if_neg hall2]
    rw [extract_some_err p l1 hc1, extract_some_err p l2 hc2]

/-- C7, witness: swapping the two lines of a concrete log leaves the summary
unchanged. -/
theorem extract_summary_perm_invariant_witness :
    (["tps = 1".toList, "tps = 2".toList].Perm
      ["tps = 2".toList, "tps = 1".toList]) ∧
    summaryOf (extract_tps_stats ("test.log".toList)
        (some ["tps = 1".toList, "tps = 2".toList])) =
      summaryOf (extract_tps_stats ("test.log".toList)
        (some ["tps = 2".toList, "tps = 1".toList])) :=
  ⟨List.Perm.swap ("tps = 2".toList) ("tps = 1".toList) [],
    extract_summary_perm_invariant _ _ _
      (List.Perm.swap ("tps = 2".toList) ("tps = 1".toList) [])⟩

/-- C8: the extractor is a pure function of the file content — two runs on
the same unmodified file produce identical output. -/
theorem runTwice_deterministic (p : List Char)
    (contents : Option (List (List Char))) :
    (runTwice p contents).1 = (runTwice p contents).2 := rfl

/-- C9: in the line `https = 5` the substring `tps` is not a standalone word,
yet the unanchored pattern matches it and the extractor captures the
Throughput Sample 5. -/
theorem https_line_still_matches :
    searchLine ("https = 5".toList) = some ['5'] ∧
    extract_tps_stats ("test.log".toList) (some ["https = 5".toList]) =
      .stats [5] 5 5 5 := by
  have s1 : searchLine ("https = 5".toList) = some ['5'] := by decide
  have p1 : parseFloatTok ['5'] = some 5 :=
    parseFloatTok_eval _ ['5'] [] 5 0 0 _ (by decide) (by decide) (by decide)
      (by decide) (by decide) (by decide) (by norm_num)
  have c1 : collectTps ["https = 5".toList] = .ok [5] :=
    collectTps_cons_ok _ _ _ _ _ s1 p1 rfl
  refine ⟨s1, ?_⟩
  rw [extract_some_stats _ _ _ _ c1]
  norm_num [pyMin, pyMax, pyAvg, pySum]

/-- C10, counterexample: with duration 0 and transaction count -1, `setUp`
leaves the duration at 0 and `test` issues the transaction-count command,
although the transaction count is not positive — refuting the claim's
"only when duration is zero and transaction_count is positive". -/
theorem transaction_cmd_negative_count_cex :
    chooseCmd (setupDuration 0 (-1)) = .transactionCount ∧
    ¬ (0 : ℤ) < -1 := by
  constructor
  · decide
  · decide

/-- C10, amended: for non-negative parameters, if both are zero the duration
becomes 120; whenever the duration (before or after `setUp`) is positive the
time-limited command is used; and the transaction-count command is used only
when the duration is zero and the transaction count is positive. -/
theorem setup_command_selection_nonneg (d c : ℤ) (hd : 0 ≤ d) (hc : 0 ≤ c) :
    (d = 0 ∧ c = 0 → setupDuration d c = 120) ∧
    (0 < d → chooseCmd (setupDuration d c) = .timeLimited) ∧
    (0 < setupDuration d c → chooseCmd (setupDuration d c) = .timeLimited) ∧
    (chooseCmd (setupDuration d c) = .transactionCount → d = 0 ∧ 0 < c) := by
  unfold setupDuration chooseCmd
  split_ifs <;> refine ⟨?_, ?_, ?_, ?_⟩ <;> simp_all <;> omega

/-- C10, witness: the amended selection theorem at duration 0 and transaction
count 5. -/
theorem setup_command_selection_nonneg_witness :
    ((0 : ℤ) = 0 ∧ (5 : ℤ) = 0 → setupDuration 0 5 = 120) ∧
    ((0 : ℤ) < 0 → chooseCmd (setupDuration 0 5) = .timeLimited) ∧
    ((0 : ℤ) < setupDuration 0 5 →
      chooseCmd (setupDuration 0 5) = .timeLimited) ∧
    (chooseCmd (setupDuration 0 5) = .transactionCount →
      (0 : ℤ) = 0 ∧ (0 : ℤ) < 5) :=
  setup_command_selection_nonneg 0 5 (by decide) (by decide)
